import Mathlib

/-!
Shallow embedding of the storj metabase consistency core: the data model
(objects, segments, locations, retention), the retrieval index
(`GetObjectExactVersion`, `GetObjectLatestVersion`, `GetSegmentByPosition`,
`GetSegmentByOffset`, `BucketEmpty` from satellite/metainfo/metabase/get.go),
the precommit constraint engine (modelled from the spec, since only its tests
ship in the sources), and the coupons batch conversion / paged listing from
the satellitedb coupons store.

Databases are modelled as explicit lists of object and segment rows; SQL
queries become list traversals with the same filtering, ordering and LIMIT
semantics; fallible operations return `Except MetabaseError`.
-/

deriving instance DecidableEq for Except

namespace Metabase

/-- Status of an object row; the SQL queries test the Committed sentinel in
their WHERE clauses. -/
inductive ObjectStatus where
  | pending
  | committed
deriving DecidableEq, Repr

/-- Retention mode (storj.NoRetention / GovernanceMode / ComplianceMode). -/
inductive RetentionMode where
  | noRetention
  | governance
  | compliance
deriving DecidableEq, Repr

/-- Retention settings attached to an object. Timestamps are integers. -/
structure Retention where
  mode : RetentionMode
  retainUntil : Int
deriving DecidableEq, Repr

instance : Inhabited Retention := ⟨⟨.noRetention, 0⟩⟩

/-- Modelled from the spec: the Retention Evaluator is not under src/ (only
its callers are). Delete-protected iff Mode = Compliance and
RetainUntil > now; Governance mode does not block precommit deletion. -/
def Retention.deleteProtected (r : Retention) (now : Int) : Bool :=
  decide (r.mode = .compliance ∧ now < r.retainUntil)

/-- ObjectLocation: ProjectID (UUID modelled as Nat, 0 = zero UUID),
BucketName, ObjectKey. -/
structure ObjectLocation where
  projectID : Nat
  bucketName : String
  objectKey : String
deriving DecidableEq, Repr

/-- An object row of the `objects` table (the fields the metabase get path
reads and writes; version is the Version integer type). -/
structure Object where
  projectID : Nat
  bucketName : String
  objectKey : String
  version : Int
  streamID : Nat
  status : ObjectStatus
  createdAt : Int
  expiresAt : Option Int
  segmentCount : Nat
  encryptedMetadataNonce : List Nat
  encryptedMetadata : List Nat
  encryptedMetadataEncryptedKey : List Nat
  totalEncryptedSize : Int
  fixedSegmentSize : Int
  encryption : Nat
  retention : Retention
deriving DecidableEq, Repr

/-- The location (project, bucket, key) of an object row. -/
def Object.location (o : Object) : ObjectLocation :=
  ⟨o.projectID, o.bucketName, o.objectKey⟩

/-- A segment row of the `segments` table. -/
structure Segment where
  streamID : Nat
  position : Nat
  rootPieceID : Nat
  encryptedKeyNonce : List Nat
  encryptedKey : List Nat
  encryptedSize : Int
  plainOffset : Int
  plainSize : Int
  redundancy : Nat
  inlineData : List Nat
  pieces : List Nat
deriving DecidableEq, Repr

/-- The database state visible to one adapter: the objects and segments
tables. -/
structure DBState where
  objects : List Object
  segments : List Segment
deriving DecidableEq, Repr

/-- Error kinds of the metabase core: InvalidRequest, ObjectNotFound,
ObjectLock, Conflict, plus the generic wrapped backend/internal error
(`Error.New`). -/
inductive MetabaseError where
  | invalidRequest (msg : String)
  | objectNotFound (msg : String)
  | objectLock (msg : String)
  | conflict (msg : String)
  | internalError (msg : String)
deriving DecidableEq, Repr

/-- Whether an error has the InvalidRequest kind. -/
def MetabaseError.isInvalidRequest : MetabaseError → Bool
  | .invalidRequest _ => true
  | _ => false

/-- Whether an error has the ObjectNotFound kind. -/
def MetabaseError.isObjectNotFound : MetabaseError → Bool
  | .objectNotFound _ => true
  | _ => false

/-- Whether an error has the ObjectLock kind. -/
def MetabaseError.isObjectLock : MetabaseError → Bool
  | .objectLock _ => true
  | _ => false

/-- Modelled from the spec: `ObjectLocation.Verify` is not under src/ (only
its callers are). It fails with InvalidRequest when the project identifier
is zero or the bucket name or object key is empty. -/
def ObjectLocation.verify (loc : ObjectLocation) : Except MetabaseError Unit :=
  if loc.projectID = 0 then .error (.invalidRequest "ProjectID missing")
  else if loc.bucketName = "" then .error (.invalidRequest "BucketName missing")
  else if loc.objectKey = "" then .error (.invalidRequest "ObjectKey missing")
  else .ok ()

/-- Row predicate of the exact-version query: project, bucket, key, version
match and status is the Committed sentinel. -/
def matchesExact (loc : ObjectLocation) (version : Int) (o : Object) : Bool :=
  decide (o.location = loc ∧ o.version = version ∧ o.status = .committed)

/-- Row predicate of the latest-version query: project, bucket, key match
and status is the Committed sentinel. -/
def matchesCommittedAt (loc : ObjectLocation) (o : Object) : Bool :=
  decide (o.location = loc ∧ o.status = .committed)

/-- Model of `ORDER BY version DESC LIMIT 1`: pick a row with the greatest
version. -/
def pickLatest : List Object → Option Object
  | [] => none
  | o :: rest =>
    match pickLatest rest with
    | none => some o
    | some m => if o.version < m.version then some m else some o

/-- Request of GetObjectExactVersion. -/
structure GetObjectExactVersionReq where
  location : ObjectLocation
  version : Int
deriving DecidableEq, Repr

/-- Verification of the exact-version request: location fields present and version
positive. -/
def GetObjectExactVersionReq.verify (req : GetObjectExactVersionReq) :
    Except MetabaseError Unit :=
  match req.location.verify with
  | .error e => .error e
  | .ok _ =>
    if req.version ≤ 0 then .error (.invalidRequest "Version invalid")
    else .ok ()

/-- The object value GetObjectExactVersion builds from a scanned row: the
scanned columns come from the row, the location and version are copied from
the request, the status is set to Committed, and the unscanned columns
(such as retention) stay at their zero values. -/
def scannedObject (req : GetObjectExactVersionReq) (row : Object) : Object :=
  { projectID := req.location.projectID
    bucketName := req.location.bucketName
    objectKey := req.location.objectKey
    version := req.version
    streamID := row.streamID
    status := .committed
    createdAt := row.createdAt
    expiresAt := row.expiresAt
    segmentCount := row.segmentCount
    encryptedMetadataNonce := row.encryptedMetadataNonce
    encryptedMetadata := row.encryptedMetadata
    encryptedMetadataEncryptedKey := row.encryptedMetadataEncryptedKey
    totalEncryptedSize := row.totalEncryptedSize
    fixedSegmentSize := row.fixedSegmentSize
    encryption := row.encryption
    retention := default }

/-- GetObjectExactVersion: verify the request, then query the single
committed row at exactly (location, version); ErrNoRows becomes the
ObjectNotFound kind. -/
def GetObjectExactVersion (db : DBState) (req : GetObjectExactVersionReq) :
    Except MetabaseError Object :=
  match req.verify with
  | .error e => .error e
  | .ok _ =>
    match (db.objects.filter (matchesExact req.location req.version)).head? with
    | none => .error (.objectNotFound "sql: no rows in result set")
    | some row => .ok (scannedObject req row)

/-- The object value GetObjectLatestVersion builds from a scanned row:
version is scanned from the row, location comes from the request, status is
set to Committed, unscanned columns stay zero. -/
def scannedLatestObject (loc : ObjectLocation) (row : Object) : Object :=
  { projectID := loc.projectID
    bucketName := loc.bucketName
    objectKey := loc.objectKey
    version := row.version
    streamID := row.streamID
    status := .committed
    createdAt := row.createdAt
    expiresAt := row.expiresAt
    segmentCount := row.segmentCount
    encryptedMetadataNonce := row.encryptedMetadataNonce
    encryptedMetadata := row.encryptedMetadata
    encryptedMetadataEncryptedKey := row.encryptedMetadataEncryptedKey
    totalEncryptedSize := row.totalEncryptedSize
    fixedSegmentSize := row.fixedSegmentSize
    encryption := row.encryption
    retention := default }

/-- GetObjectLatestVersion: verify the location, then query the committed
rows at the location ordered by version descending with LIMIT 1; ErrNoRows
becomes the ObjectNotFound kind. -/
def GetObjectLatestVersion (db : DBState) (loc : ObjectLocation) :
    Except MetabaseError Object :=
  match loc.verify with
  | .error e => .error e
  | .ok _ =>
    match pickLatest (db.objects.filter (matchesCommittedAt loc)) with
    | none => .error (.objectNotFound "sql: no rows in result set")
    | some row => .ok (scannedLatestObject loc row)

/-- Request of GetSegmentByPosition. -/
structure GetSegmentByPositionReq where
  streamID : Nat
  position : Nat
deriving DecidableEq, Repr

/-- Verification of the by-position request: the stream id must not be the
zero UUID. -/
def GetSegmentByPositionReq.verify (req : GetSegmentByPositionReq) :
    Except MetabaseError Unit :=
  if req.streamID = 0 then .error (.invalidRequest "StreamID missing")
  else .ok ()

/-- The segment value GetSegmentByPosition builds from a scanned row: the
scanned columns come from the row and the stream id and position are copied
from the request. -/
def scannedSegment (req : GetSegmentByPositionReq) (row : Segment) : Segment :=
  { streamID := req.streamID
    position := req.position
    rootPieceID := row.rootPieceID
    encryptedKeyNonce := row.encryptedKeyNonce
    encryptedKey := row.encryptedKey
    encryptedSize := row.encryptedSize
    plainOffset := row.plainOffset
    plainSize := row.plainSize
    redundancy := row.redundancy
    inlineData := row.inlineData
    pieces := row.pieces }

/-- Row predicate of the by-position query: stream id and position match. -/
def matchesSegmentAt (streamID : Nat) (position : Nat) (s : Segment) : Bool :=
  decide (s.streamID = streamID ∧ s.position = position)

/-- GetSegmentByPosition: verify the request, then run
`SELECT ... FROM objects, segments WHERE segments.stream_id = $1 AND
segments.position = $2`. The cross join with `objects` means a row comes
back only when the objects table is nonempty; ErrNoRows becomes the plain
internal error "segment missing" (NOT wrapped in the ObjectNotFound kind,
unlike the sibling queries in get.go). -/
def GetSegmentByPosition (db : DBState) (req : GetSegmentByPositionReq) :
    Except MetabaseError Segment :=
  match req.verify with
  | .error e => .error e
  | .ok _ =>
    let rows :=
      if db.objects.isEmpty then []
      else db.segments.filter (matchesSegmentAt req.streamID req.position)
    match rows.head? with
    | none => .error (.internalError "segment missing")
    | some row => .ok (scannedSegment req row)

/-- Subquery shared by the last-segment and by-offset lookups: the stream id
of the latest committed object at the location (`SELECT stream_id FROM
objects WHERE ... status = committed ORDER BY version DESC LIMIT 1`);
when no such object exists the subquery yields NULL and no segment row can
match. -/
def latestCommittedStream (db : DBState) (loc : ObjectLocation) : Option Nat :=
  (pickLatest (db.objects.filter (matchesCommittedAt loc))).map (·.streamID)

/-- Model of `ORDER BY plain_offset ASC LIMIT 1`: pick a row with the least plain
offset. -/
def pickMinOffset : List Segment → Option Segment
  | [] => none
  | s :: rest =>
    match pickMinOffset rest with
    | none => some s
    | some m => if m.plainOffset < s.plainOffset then some m else some s

/-- Request of GetSegmentByOffset. -/
structure GetSegmentByOffsetReq where
  location : ObjectLocation
  plainOffset : Int
deriving DecidableEq, Repr

/-- Row predicate of the by-offset query: the segment belongs to the stream
and its half-open interval [PlainOffset, PlainOffset + PlainSize) contains
the queried offset. -/
def coversOffset (sid : Nat) (off : Int) (s : Segment) : Bool :=
  decide (s.streamID = sid ∧ s.plainOffset ≤ off ∧ off < s.plainSize + s.plainOffset)

/-- GetSegmentByOffset: verify the location, reject negative offsets with
InvalidRequest before querying, then return the segment of the latest
committed object whose interval covers the offset, ordered by plain_offset
ascending with LIMIT 1; ErrNoRows becomes the ObjectNotFound kind. -/
def GetSegmentByOffset (db : DBState) (req : GetSegmentByOffsetReq) :
    Except MetabaseError Segment :=
  match req.location.verify with
  | .error e => .error e
  | .ok _ =>
    if req.plainOffset < 0 then
      .error (.invalidRequest "Invalid PlainOffset")
    else
      let rows :=
        match latestCommittedStream db req.location with
        | none => []
        | some sid => db.segments.filter (coversOffset sid req.plainOffset)
      match pickMinOffset rows with
      | none => .error (.objectNotFound "object or segment missing")
      | some row => .ok row

/-- Request of BucketEmpty. -/
structure BucketEmptyReq where
  projectID : Nat
  bucketName : String
deriving DecidableEq, Repr

/-- Row predicate of the bucket-emptiness query: project and bucket match,
with no condition on status. -/
def matchesBucketRow (projectID : Nat) (bucketName : String) (o : Object) :
    Bool :=
  decide (o.projectID = projectID ∧ o.bucketName = bucketName)

/-- BucketEmpty: reject a zero project id or empty bucket name with
InvalidRequest, then `SELECT 1 FROM objects WHERE project_id = $1 AND
bucket_name = $2 LIMIT 1` — true exactly when no object row of any status
exists for the pair; bucket existence itself is never checked. -/
def BucketEmpty (db : DBState) (req : BucketEmptyReq) :
    Except MetabaseError Bool :=
  if req.projectID = 0 then .error (.invalidRequest "ProjectID missing")
  else if req.bucketName = "" then .error (.invalidRequest "BucketName missing")
  else
    let rows := db.objects.filter (matchesBucketRow req.projectID req.bucketName)
    match rows.head? with
    | none => .ok true
    | some _ => .ok false

/-- Named variants of the delete mode controlling which categories of rows
are eligible for automatic deletion; every variant applies the retention
check uniformly. -/
inductive PrecommitDeleteMode where
  | defaultUnversioned
  | withObjectLockUnversioned
deriving DecidableEq, Repr

/-- Request of PrecommitConstraint. -/
structure PrecommitConstraintReq where
  location : ObjectLocation
  versioned : Bool
  disallowDelete : Bool
  precommitDeleteMode : PrecommitDeleteMode
deriving DecidableEq, Repr

/-- PrecommitConstraintResult: deleted objects, their count, the count of
their segments, and the highest version among objects at the location. All
fields default to their zero values. -/
structure PrecommitConstraintResult where
  deleted : List Object := []
  deletedObjectCount : Nat := 0
  deletedSegmentCount : Nat := 0
  highestVersion : Int := 0
deriving DecidableEq, Repr

/-- Result of the non-pending precommit delete variant (a distinct type in
the source with the same zero-value shape). -/
structure PrecommitConstraintWithNonPendingResult where
  deleted : List Object := []
  deletedObjectCount : Nat := 0
  deletedSegmentCount : Nat := 0
  highestVersion : Int := 0
deriving DecidableEq, Repr

/-- Maximum version among a list of object rows, 0 when the list is empty. -/
def highestVersionOf : List Object → Int
  | [] => 0
  | o :: rest => max o.version (highestVersionOf rest)

/-- Modelled from the spec: `PrecommitConstraint` itself is not under src/
(only its tests and callers are). Executed inside the transaction of the caller:
(1) when no object exists at the location, return the zero result and no
error regardless of flags; (2) when versioned, never delete, return the
highest version among existing objects; (3) when unversioned, take the
committed objects at the location as deletion candidates, fail with the
ObjectLock kind if any is currently delete-protected, fail with Conflict if
DisallowDelete would otherwise have to delete, and otherwise delete the
candidates and all their segments and report them, with HighestVersion
computed over the remaining objects at the location. Every delete-mode
variant applies the retention check uniformly. On error the state is
returned unchanged (the transaction holds whatever it held before). -/
def PrecommitConstraint (now : Int) (req : PrecommitConstraintReq)
    (db : DBState) :
    Except MetabaseError PrecommitConstraintResult × DBState :=
  let existing := db.objects.filter fun o => decide (o.location = req.location)
  if existing.isEmpty then
    (.ok {}, db)
  else if req.versioned then
    (.ok { highestVersion := highestVersionOf existing }, db)
  else
    let candidates := existing.filter fun o => decide (o.status = .committed)
    if candidates.any fun o => o.retention.deleteProtected now then
      (.error (.objectLock "object is protected by a retention period"), db)
    else if req.disallowDelete && !candidates.isEmpty then
      (.error (.conflict "object already exists"), db)
    else
      let remainingObjects := db.objects.filter fun o =>
        !decide (o.location = req.location ∧ o.status = .committed)
      let remainingSegments := db.segments.filter fun s =>
        !candidates.any fun o => decide (o.streamID = s.streamID)
      (.ok { deleted := candidates
             deletedObjectCount := candidates.length
             deletedSegmentCount := (candidates.map (·.segmentCount)).sum
             highestVersion := highestVersionOf
               (remainingObjects.filter fun o => decide (o.location = req.location)) },
       { objects := remainingObjects, segments := remainingSegments })

/-- Modelled from the spec: `PrecommitDeleteUnversionedWithNonPending` is
not under src/ (only its tests are). It performs the same retention-gated
deletion of the committed objects at the location, independent of the
versioned flag, and returns the zero-value result and no error when nothing
existed at the location. -/
def PrecommitDeleteUnversionedWithNonPending (now : Int)
    (loc : ObjectLocation) (db : DBState) :
    Except MetabaseError PrecommitConstraintWithNonPendingResult × DBState :=
  let existing := db.objects.filter fun o => decide (o.location = loc)
  if existing.isEmpty then
    (.ok {}, db)
  else
    let candidates := existing.filter fun o => decide (o.status = .committed)
    if candidates.any fun o => o.retention.deleteProtected now then
      (.error (.objectLock "object is protected by a retention period"), db)
    else
      let remainingObjects := db.objects.filter fun o =>
        !decide (o.location = loc ∧ o.status = .committed)
      let remainingSegments := db.segments.filter fun s =>
        !candidates.any fun o => decide (o.streamID = s.streamID)
      (.ok { deleted := candidates
             deletedObjectCount := candidates.length
             deletedSegmentCount := (candidates.map (·.segmentCount)).sum
             highestVersion := highestVersionOf
               (remainingObjects.filter fun o => decide (o.location = loc)) },
       { objects := remainingObjects, segments := remainingSegments })

end Metabase

namespace SatelliteDB

/-- A row of the autogenerated dbx.Coupon struct; UUID columns are raw byte
slices. -/
structure DbxCoupon where
  id : List Nat
  projectId : List Nat
  userId : List Nat
  amount : Int
  description : String
  status : Int
  duration : Int
  createdAt : Int
deriving DecidableEq, Repr

/-- The payments.Coupon entity built by fromDBXCoupon. -/
structure Coupon where
  id : List Nat := []
  projectID : List Nat := []
  userID : List Nat := []
  amount : Int := 0
  duration : Int := 0
  description : String := ""
  status : Int := 0
  created : Int := 0
deriving DecidableEq, Repr

/-- dbutil.BytesToUUID: succeeds exactly on 16-byte slices. -/
def bytesToUUID (b : List Nat) : Except String (List Nat) :=
  if b.length = 16 then .ok b else .error "uuid: bad byte length"

/-- fromDBXCoupon: converts a dbx row to a payments.Coupon, failing when any
of the three UUID columns has bad bytes. -/
def fromDBXCoupon (c : DbxCoupon) : Except String Coupon :=
  match bytesToUUID c.userId with
  | .error e => .error e
  | .ok userID =>
    match bytesToUUID c.projectId with
    | .error e => .error e
    | .ok projectID =>
      match bytesToUUID c.id with
      | .error e => .error e
      | .ok id =>
        .ok { id := id, projectID := projectID, userID := userID,
              amount := c.amount, duration := c.duration,
              description := c.description, status := c.status,
              created := c.createdAt }

/-- couponsFromDbxSlice: converts every row, collecting all per-row
failures (errs.Combine), not just the first; the combined error is nil
exactly when the error list is empty. -/
def couponsFromDbxSlice (rows : List DbxCoupon) : List Coupon × List String :=
  rows.foldl
    (fun acc row =>
      match fromDBXCoupon row with
      | .ok c => (acc.1 ++ [c], acc.2)
      | .error e => (acc.1, acc.2 ++ [e]))
    ([], [])

/-- The integer sentinel of coinpayments.StatusPending used by the paged
query. -/
def statusPendingInt : Int := 0

/-- The payments.CouponsPage structure. -/
structure CouponsPage where
  coupons : List Coupon := []
  next : Bool := false
  nextOffset : Int := 0
deriving DecidableEq, Repr

/-- ListPaged: query at most limit+1 pending coupon rows created at or
before the cutoff, ordered by created_at descending (the table list stands
for the ordered result of the backend), set Next/NextOffset when a full page
plus one came back, then convert the rows. Faithful to the source: when the
conversion reports an error, the function returns the zero-value page AND a
nil error (`return payments.CouponsPage{}, nil`), discarding the error. -/
def ListPaged (table : List DbxCoupon) (offset : Nat) (limit : Nat)
    (before : Int) : Except (List String) CouponsPage :=
  let dbxCoupons :=
    (((table.filter fun c =>
        decide (c.createdAt ≤ before ∧ c.status = statusPendingInt)).drop
      offset).take (limit + 1))
  let paged :=
    if dbxCoupons.length = limit + 1 then
      (true, (offset : Int) + limit + 1, dbxCoupons.dropLast)
    else
      (false, (0 : Int), dbxCoupons)
  let converted := couponsFromDbxSlice paged.2.2
  if converted.2.isEmpty then
    .ok { coupons := converted.1, next := paged.1, nextOffset := paged.2.1 }
  else
    .ok {}

end SatelliteDB

namespace Metabase

theorem pickLatest_eq_none {l : List Object} (h : pickLatest l = none) :
    l = [] := by
  cases l with
  | nil => rfl
  | cons o rest =>
    unfold pickLatest at h
    cases hrest : pickLatest rest with
    | none => rw [hrest] at h; exact absurd h (by simp)
    | some m => rw [hrest] at h; by_cases hlt : o.version < m.version <;>
        simp [hlt] at h

theorem pickLatest_mem {l : List Object} {m : Object}
    (h : pickLatest l = some m) : m ∈ l := by
  induction l with
  | nil => simp [pickLatest] at h
  | cons o rest ih =>
    unfold pickLatest at h
    cases hrest : pickLatest rest with
    | none =>
      rw [hrest] at h
      simp at h
      simp [h]
    | some m2 =>
      rw [hrest] at h
      by_cases hlt : o.version < m2.version
      · simp [hlt] at h
        subst h
        exact List.mem_cons_of_mem o (ih hrest)
      · simp [hlt] at h
        simp [h]

theorem pickLatest_ge {l : List Object} :
    ∀ {m : Object}, pickLatest l = some m → ∀ o ∈ l, o.version ≤ m.version := by
  induction l with
  | nil => intro m h; simp [pickLatest] at h
  | cons o rest ih =>
    intro m h x hx
    unfold pickLatest at h
    cases hrest : pickLatest rest with
    | none =>
      rw [hrest] at h
      simp at h
      have hrnil : rest = [] := pickLatest_eq_none hrest
      subst hrnil
      have hxo := List.mem_singleton.mp hx
      subst hxo; subst h; exact le_refl _
    | some m2 =>
      rw [hrest] at h
      by_cases hlt : o.version < m2.version
      · simp [hlt] at h
        subst h
        rcases List.mem_cons.mp hx with hxo | hxr
        · subst hxo; exact le_of_lt hlt
        · exact ih hrest x hxr
      · simp [hlt] at h
        subst h
        rcases List.mem_cons.mp hx with hxo | hxr
        · subst hxo; exact le_refl _
        · have hle : x.version ≤ m2.version := ih hrest x hxr
          omega

theorem pickMinOffset_eq_none {l : List Segment}
    (h : pickMinOffset l = none) : l = [] := by
  cases l with
  | nil => rfl
  | cons s rest =>
    unfold pickMinOffset at h
    cases hrest : pickMinOffset rest with
    | none => rw [hrest] at h; exact absurd h (by simp)
    | some m => rw [hrest] at h; by_cases hlt : m.plainOffset < s.plainOffset <;>
        simp [hlt] at h

theorem pickMinOffset_mem {l : List Segment} {m : Segment}
    (h : pickMinOffset l = some m) : m ∈ l := by
  induction l with
  | nil => simp [pickMinOffset] at h
  | cons s rest ih =>
    unfold pickMinOffset at h
    cases hrest : pickMinOffset rest with
    | none =>
      rw [hrest] at h
      simp at h
      simp [h]
    | some m2 =>
      rw [hrest] at h
      by_cases hlt : m2.plainOffset < s.plainOffset
      · simp [hlt] at h
        subst h
        exact List.mem_cons_of_mem s (ih hrest)
      · simp [hlt] at h
        simp [h]

theorem pickMinOffset_le {l : List Segment} :
    ∀ {m : Segment}, pickMinOffset l = some m →
      ∀ s ∈ l, m.plainOffset ≤ s.plainOffset := by
  induction l with
  | nil => intro m h; simp [pickMinOffset] at h
  | cons s rest ih =>
    intro m h x hx
    unfold pickMinOffset at h
    cases hrest : pickMinOffset rest with
    | none =>
      rw [hrest] at h
      simp at h
      have hrnil : rest = [] := pickMinOffset_eq_none hrest
      subst hrnil
      have hxs := List.mem_singleton.mp hx
      subst hxs; subst h; exact le_refl _
    | some m2 =>
      rw [hrest] at h
      by_cases hlt : m2.plainOffset < s.plainOffset
      · simp [hlt] at h
        subst h
        rcases List.mem_cons.mp hx with hxs | hxr
        · subst hxs; exact le_of_lt hlt
        · exact ih hrest x hxr
      · simp [hlt] at h
        subst h
        rcases List.mem_cons.mp hx with hxs | hxr
        · subst hxs; exact le_refl _
        · have hle : m2.plainOffset ≤ x.plainOffset := ih hrest x hxr
          omega

theorem locationVerify_ok_iff (loc : ObjectLocation) :
    loc.verify = .ok () ↔
      loc.projectID ≠ 0 ∧ loc.bucketName ≠ "" ∧ loc.objectKey ≠ "" := by
  unfold ObjectLocation.verify
  split_ifs with h1 h2 h3 <;> simp_all

theorem locationVerify_cases (loc : ObjectLocation) :
    loc.verify = .ok () ∨
      ∃ msg, loc.verify = .error (.invalidRequest msg) := by
  unfold ObjectLocation.verify
  split_ifs <;> simp

theorem exactVersionReqVerify_ok_iff (req : GetObjectExactVersionReq) :
    req.verify = .ok () ↔
      (req.location.projectID ≠ 0 ∧ req.location.bucketName ≠ "" ∧
       req.location.objectKey ≠ "" ∧ 0 < req.version) := by
  unfold GetObjectExactVersionReq.verify ObjectLocation.verify
  split_ifs <;> simp_all

theorem exactVersionReqVerify_cases (req : GetObjectExactVersionReq) :
    req.verify = .ok () ∨
      ∃ msg, req.verify = .error (.invalidRequest msg) := by
  unfold GetObjectExactVersionReq.verify ObjectLocation.verify
  split_ifs <;> simp

/-- C1: precommit on a location with no existing object (pending or
committed) returns the zero-value result and no error, for every
combination of the versioned and disallowDelete flags and every delete
mode, and the non-pending delete variant does the same; the database is
left unchanged. -/
theorem precommitConstraint_empty_location_zero_result (now : Int)
    (db : DBState) (loc : ObjectLocation) (versioned disallowDelete : Bool)
    (mode : PrecommitDeleteMode)
    (hempty : ∀ o ∈ db.objects, o.location ≠ loc) :
    PrecommitConstraint now
        { location := loc, versioned := versioned,
          disallowDelete := disallowDelete, precommitDeleteMode := mode } db
      = (.ok {}, db) ∧
    PrecommitDeleteUnversionedWithNonPending now loc db = (.ok {}, db) := by
  have hfil : db.objects.filter (fun o => decide (o.location = loc)) = [] :=
    List.filter_eq_nil_iff.mpr (by intro o ho; simp [hempty o ho])
  constructor
  · simp [PrecommitConstraint, hfil]
  · simp [PrecommitDeleteUnversionedWithNonPending, hfil]

/-- Witness for C1 at a concrete empty database. -/
theorem precommitConstraint_empty_location_zero_result_witness :
    PrecommitConstraint 0
        { location := ⟨1, "bucket", "key"⟩, versioned := false,
          disallowDelete := true,
          precommitDeleteMode := .withObjectLockUnversioned } ⟨[], []⟩
      = (.ok {}, ⟨[], []⟩) ∧
    PrecommitDeleteUnversionedWithNonPending 0 ⟨1, "bucket", "key"⟩ ⟨[], []⟩
      = (.ok {}, ⟨[], []⟩) :=
  precommitConstraint_empty_location_zero_result 0 ⟨[], []⟩
    ⟨1, "bucket", "key"⟩ false true .withObjectLockUnversioned (by simp)

/-- C2: an unversioned precommit that finds a committed object whose
Compliance retention is still in the future fails with the ObjectLock error
kind and performs no mutation: the database state afterwards is the input
state, so the object and all its segments are unchanged. -/
theorem precommitConstraint_active_retention_objectlock (now : Int)
    (db : DBState) (o : Object) (d : Bool) (mode : PrecommitDeleteMode)
    (hmem : o ∈ db.objects) (hst : o.status = .committed)
    (hmode : o.retention.mode = .compliance)
    (hfut : now < o.retention.retainUntil) :
    PrecommitConstraint now
        { location := o.location, versioned := false, disallowDelete := d,
          precommitDeleteMode := mode } db
      = (.error (.objectLock "object is protected by a retention period"),
         db) := by
  have hmem1 : o ∈ db.objects.filter (fun x => decide (x.location = o.location)) :=
    List.mem_filter.mpr ⟨hmem, by simp⟩
  have hne : (db.objects.filter fun x => decide (x.location = o.location)).isEmpty
      = false := by
    cases hb : (db.objects.filter fun x => decide (x.location = o.location)).isEmpty with
    | false => rfl
    | true => exact absurd (List.isEmpty_iff.mp hb) (List.ne_nil_of_mem hmem1)
  have hmem2 : o ∈ (db.objects.filter fun x => decide (x.location = o.location)).filter
      (fun x => decide (x.status = ObjectStatus.committed)) :=
    List.mem_filter.mpr ⟨hmem1, by simp [hst]⟩
  have hany : ((db.objects.filter fun x => decide (x.location = o.location)).filter
      (fun x => decide (x.status = ObjectStatus.committed))).any
        (fun x => x.retention.deleteProtected now) = true :=
    List.any_eq_true.mpr ⟨o, hmem2,
      by simp [Retention.deleteProtected, hmode, hfut]⟩
  unfold PrecommitConstraint
  simp only [hne, hany]
  simp

/-- Witness object for the precommit scenarios: a committed object with
three segments under Compliance retention until time 10. -/
def sampleCommitted : Object :=
  { projectID := 1, bucketName := "b", objectKey := "k", version := 1,
    streamID := 5, status := .committed, createdAt := 0, expiresAt := none,
    segmentCount := 3, encryptedMetadataNonce := [], encryptedMetadata := [],
    encryptedMetadataEncryptedKey := [], totalEncryptedSize := 0,
    fixedSegmentSize := 0, encryption := 0,
    retention := ⟨.compliance, 10⟩ }

/-- Witness for C2: at time 5 the retention of `sampleCommitted` is still
active, so the unversioned precommit fails with ObjectLock and leaves the
single-object database unchanged. -/
theorem precommitConstraint_active_retention_objectlock_witness :
    PrecommitConstraint 5
        { location := sampleCommitted.location, versioned := false,
          disallowDelete := false,
          precommitDeleteMode := .withObjectLockUnversioned }
        ⟨[sampleCommitted], []⟩
      = (.error (.objectLock "object is protected by a retention period"),
         ⟨[sampleCommitted], []⟩) :=
  precommitConstraint_active_retention_objectlock 5 ⟨[sampleCommitted], []⟩
    sampleCommitted false .withObjectLockUnversioned (by simp)
    (by decide) (by decide) (by decide)

/-- C3: an unversioned precommit at a location holding a committed object
with three segments whose Compliance retention has expired, plus a pending
object at the next higher version, succeeds: it deletes the committed
object and its segments, reports one deleted object, three deleted
segments, and the version of the pending object as HighestVersion, and only the
pending object (with no segments) survives. -/
theorem precommitConstraint_expired_retention_deletes (now : Int)
    (O P : Object) (segs : List Segment)
    (hOst : O.status = .committed)
    (hOmode : O.retention.mode = .compliance)
    (hOexp : O.retention.retainUntil < now)
    (hOseg : O.segmentCount = 3)
    (hOver : 0 < O.version)
    (hPst : P.status = .pending)
    (hPloc : P.location = O.location)
    (hPver : P.version = O.version + 1)
    (hsegs : ∀ s ∈ segs, s.streamID = O.streamID)
    (_hlen : segs.length = 3) :
    PrecommitConstraint now
        { location := O.location, versioned := false, disallowDelete := false,
          precommitDeleteMode := .withObjectLockUnversioned }
        ⟨[O, P], segs⟩
      = (.ok { deleted := [O], deletedObjectCount := 1,
               deletedSegmentCount := 3, highestVersion := P.version },
         ⟨[P], []⟩) := by
  have h1 : [O, P].filter (fun o => decide (o.location = O.location)) = [O, P] := by
    simp [hPloc]
  have h2 : [O, P].filter (fun o => decide (o.status = ObjectStatus.committed))
      = [O] := by
    simp [hOst, hPst]
  have h3 : O.retention.deleteProtected now = false := by
    simp [Retention.deleteProtected, hOmode]
    omega
  have h4 : [O, P].filter
      (fun o => !decide (o.location = O.location ∧ o.status = ObjectStatus.committed))
      = [P] := by
    simp [hOst, hPst, hPloc]
  have h5 : segs.filter
      (fun s => !([O].any fun o => decide (o.streamID = s.streamID))) = [] :=
    List.filter_eq_nil_iff.mpr (by intro s hs; simp [hsegs s hs])
  have h6 : [P].filter (fun o => decide (o.location = O.location)) = [P] := by
    simp [hPloc]
  have h7 : highestVersionOf [P] = P.version := by
    unfold highestVersionOf highestVersionOf
    exact max_eq_left (by omega)
  unfold PrecommitConstraint
  simp only [h1, h2, h3, h4, h5, h6, h7, hOseg]
  simp [h3, hOseg]

/-- Witness pending object for the C3 scenario: pending at version 2 on the
same location as `sampleCommitted`, with its own stream. -/
def samplePending : Object :=
  { projectID := 1, bucketName := "b", objectKey := "k", version := 2,
    streamID := 6, status := .pending, createdAt := 0, expiresAt := none,
    segmentCount := 0, encryptedMetadataNonce := [], encryptedMetadata := [],
    encryptedMetadataEncryptedKey := [], totalEncryptedSize := 0,
    fixedSegmentSize := 0, encryption := 0,
    retention := ⟨.noRetention, 0⟩ }

/-- A segment of the stream of `sampleCommitted` at the given position. -/
def sampleSegment (pos : Nat) : Segment :=
  { streamID := 5, position := pos, rootPieceID := 0,
    encryptedKeyNonce := [], encryptedKey := [], encryptedSize := 1,
    plainOffset := pos, plainSize := 1, redundancy := 0, inlineData := [],
    pieces := [] }

/-- Witness for C3: at time 20 the retention of `sampleCommitted` has
expired, so the unversioned precommit deletes it and its three segments and
reports the version of the pending object. -/
theorem precommitConstraint_expired_retention_deletes_witness :
    PrecommitConstraint 20
        { location := sampleCommitted.location, versioned := false,
          disallowDelete := false,
          precommitDeleteMode := .withObjectLockUnversioned }
        ⟨[sampleCommitted, samplePending],
         [sampleSegment 0, sampleSegment 1, sampleSegment 2]⟩
      = (.ok { deleted := [sampleCommitted], deletedObjectCount := 1,
               deletedSegmentCount := 3,
               highestVersion := samplePending.version },
         ⟨[samplePending], []⟩) :=
  precommitConstraint_expired_retention_deletes 20 sampleCommitted
    samplePending [sampleSegment 0, sampleSegment 1, sampleSegment 2]
    (by decide) (by decide) (by decide) (by decide) (by decide) (by decide)
    (by decide) (by decide) (by decide) (by decide)

/-- C4: at a valid location, GetObjectLatestVersion returns the committed
object with the greatest version, and fails with the ObjectNotFound kind
when no committed object exists there — in particular even when pending
objects (possibly with higher versions) exist. -/
theorem getObjectLatestVersion_latest_committed (db : DBState)
    (loc : ObjectLocation) (hvalid : loc.verify = .ok ()) :
    ((∃ o ∈ db.objects, o.location = loc ∧ o.status = .committed) →
      ∃ row ∈ db.objects, row.location = loc ∧ row.status = .committed ∧
        (∀ o ∈ db.objects, o.location = loc → o.status = .committed →
          o.version ≤ row.version) ∧
        GetObjectLatestVersion db loc = .ok (scannedLatestObject loc row)) ∧
    ((∀ o ∈ db.objects, o.location = loc → o.status ≠ .committed) →
      GetObjectLatestVersion db loc
        = .error (.objectNotFound "sql: no rows in result set")) := by
  constructor
  · rintro ⟨o, ho, holoc, host⟩
    have hmem : o ∈ db.objects.filter (matchesCommittedAt loc) :=
      List.mem_filter.mpr ⟨ho, by simp [matchesCommittedAt, holoc, host]⟩
    cases hpick : pickLatest (db.objects.filter (matchesCommittedAt loc)) with
    | none =>
      rw [pickLatest_eq_none hpick] at hmem
      exact absurd hmem (List.not_mem_nil o)
    | some row =>
      have hrowmem := pickLatest_mem hpick
      have hrow := List.mem_filter.mp hrowmem
      have hrowp : row.location = loc ∧ row.status = ObjectStatus.committed := by
        have h2 := hrow.2
        simpa [matchesCommittedAt] using h2
      refine ⟨row, hrow.1, hrowp.1, hrowp.2, ?_, ?_⟩
      · intro x hx hxl hxs
        exact pickLatest_ge hpick x
          (List.mem_filter.mpr ⟨hx, by simp [matchesCommittedAt, hxl, hxs]⟩)
      · unfold GetObjectLatestVersion
        rw [hvalid]
        simp [hpick]
  · intro hnone
    have hfil : db.objects.filter (matchesCommittedAt loc) = [] :=
      List.filter_eq_nil_iff.mpr (by
        intro o ho
        simp [matchesCommittedAt]
        intro hl
        exact hnone o ho hl)
    unfold GetObjectLatestVersion
    rw [hvalid]
    simp [hfil, pickLatest]

/-- Witness for C4: a database holding only a pending object, whose
version (2) is higher than any committed one, yields ObjectNotFound. -/
theorem getObjectLatestVersion_latest_committed_witness :
    GetObjectLatestVersion ⟨[samplePending], []⟩ ⟨1, "b", "k"⟩
      = .error (.objectNotFound "sql: no rows in result set") :=
  (getObjectLatestVersion_latest_committed ⟨[samplePending], []⟩
    ⟨1, "b", "k"⟩ (by decide)).2 (by decide)

/-- C5: GetObjectExactVersion fails with InvalidRequest — independent of
the database, hence before any query — when the version is nonpositive or a
location field is missing; with a valid request it fails with
ObjectNotFound when no committed row exists at exactly the requested
location and version, and returns the committed row when one exists. -/
theorem getObjectExactVersion_spec (db : DBState)
    (req : GetObjectExactVersionReq) :
    ((req.location.projectID = 0 ∨ req.location.bucketName = "" ∨
        req.location.objectKey = "" ∨ req.version ≤ 0) →
      ∃ msg, ∀ db2 : DBState,
        GetObjectExactVersion db2 req = .error (.invalidRequest msg)) ∧
    (req.verify = .ok () →
      (∀ o ∈ db.objects, ¬(o.location = req.location ∧
          o.version = req.version ∧ o.status = .committed)) →
      GetObjectExactVersion db req
        = .error (.objectNotFound "sql: no rows in result set")) ∧
    (req.verify = .ok () →
      (∃ o ∈ db.objects, o.location = req.location ∧
          o.version = req.version ∧ o.status = .committed) →
      ∃ row ∈ db.objects, row.location = req.location ∧
        row.version = req.version ∧ row.status = .committed ∧
        GetObjectExactVersion db req = .ok (scannedObject req row)) := by
  refine ⟨?_, ?_, ?_⟩
  · intro hbad
    rcases exactVersionReqVerify_cases req with hok | ⟨msg, herr⟩
    · have hprops := (exactVersionReqVerify_ok_iff req).mp hok
      rcases hbad with h | h | h | h
      · exact absurd h hprops.1
      · exact absurd h hprops.2.1
      · exact absurd h hprops.2.2.1
      · omega
    · refine ⟨msg, fun db2 => ?_⟩
      unfold GetObjectExactVersion
      rw [herr]
  · intro hok hnone
    have hfil : db.objects.filter (matchesExact req.location req.version) = [] :=
      List.filter_eq_nil_iff.mpr (by
        intro o ho
        simp [matchesExact]
        intro hl hv
        exact fun hs => hnone o ho ⟨hl, hv, hs⟩)
    unfold GetObjectExactVersion
    rw [hok]
    simp [hfil]
  · rintro hok ⟨o, ho, holoc, hover, host⟩
    have hmem : o ∈ db.objects.filter (matchesExact req.location req.version) :=
      List.mem_filter.mpr ⟨ho, by simp [matchesExact, holoc, hover, host]⟩
    cases hhead : (db.objects.filter (matchesExact req.location req.version)).head? with
    | none =>
      rw [List.head?_eq_none_iff.mp hhead] at hmem
      exact absurd hmem (List.not_mem_nil o)
    | some row =>
      have hrowmem : row ∈ db.objects.filter (matchesExact req.location req.version) :=
        List.mem_of_mem_head? (by simp [hhead])
      have hrow := List.mem_filter.mp hrowmem
      have hrowp : row.location = req.location ∧ row.version = req.version ∧
          row.status = ObjectStatus.committed := by
        have h2 := hrow.2
        simpa [matchesExact] using h2
      refine ⟨row, hrow.1, hrowp.1, hrowp.2.1, hrowp.2.2, ?_⟩
      unfold GetObjectExactVersion
      rw [hok]
      simp [hhead]

/-- Witness for C5: the committed sample object is found at exactly its
location and version 1. -/
theorem getObjectExactVersion_spec_witness :
    ∃ row ∈ ({ objects := [sampleCommitted], segments := [] } : DBState).objects,
      row.location = (⟨⟨1, "b", "k"⟩, 1⟩ : GetObjectExactVersionReq).location ∧
      row.version = 1 ∧ row.status = .committed ∧
      GetObjectExactVersion ⟨[sampleCommitted], []⟩ ⟨⟨1, "b", "k"⟩, 1⟩
        = .ok (scannedObject ⟨⟨1, "b", "k"⟩, 1⟩ row) := by
  have h := (getObjectExactVersion_spec ⟨[sampleCommitted], []⟩
    ⟨⟨1, "b", "k"⟩, 1⟩).2.2 (by decide)
    ⟨sampleCommitted, by decide, by decide, by decide, by decide⟩
  rcases h with ⟨row, hmem, h1, h2, h3, h4⟩
  exact ⟨row, hmem, h1, h2, h3, h4⟩

/-- C6 counterexample: with an object row present and a segment only at
position 0, looking up position 1 finds no row, and the resulting error is
the generic internal "segment missing" error, not the ObjectNotFound kind
the claim asserts. -/
theorem getSegmentByPosition_error_not_objectNotFound :
    GetSegmentByPosition ⟨[sampleCommitted], [sampleSegment 0]⟩ ⟨5, 1⟩
      = .error (.internalError "segment missing") ∧
    (MetabaseError.internalError "segment missing").isObjectNotFound = false :=
  ⟨rfl, rfl⟩

/-- C6 amended: GetSegmentByPosition fails with InvalidRequest when the
stream id is the zero UUID; when the objects table is nonempty (the query
cross-joins objects) it returns a matching segment when one exists; and
when no row matches it fails with the generic internal error
"segment missing", whose kind is not ObjectNotFound. -/
theorem getSegmentByPosition_spec (db : DBState)
    (req : GetSegmentByPositionReq) :
    (req.streamID = 0 →
      GetSegmentByPosition db req
        = .error (.invalidRequest "StreamID missing")) ∧
    (req.streamID ≠ 0 → db.objects ≠ [] →
      (∃ s ∈ db.segments, s.streamID = req.streamID ∧
          s.position = req.position) →
      ∃ s ∈ db.segments, s.streamID = req.streamID ∧
        s.position = req.position ∧
        GetSegmentByPosition db req = .ok (scannedSegment req s)) ∧
    (req.streamID ≠ 0 →
      (db.objects = [] ∨ ∀ s ∈ db.segments,
        ¬(s.streamID = req.streamID ∧ s.position = req.position)) →
      GetSegmentByPosition db req
        = .error (.internalError "segment missing")) := by
  refine ⟨?_, ?_, ?_⟩
  · intro hzero
    unfold GetSegmentByPosition GetSegmentByPositionReq.verify
    simp [hzero]
  · rintro hnz hobj ⟨s, hs, hsid, hpos⟩
    have hmem : s ∈ db.segments.filter
        (matchesSegmentAt req.streamID req.position) :=
      List.mem_filter.mpr ⟨hs, by simp [matchesSegmentAt, hsid, hpos]⟩
    have hobjne : db.objects.isEmpty = false := by
      cases hb : db.objects.isEmpty with
      | false => rfl
      | true => exact absurd (List.isEmpty_iff.mp hb) hobj
    cases hhead : (db.segments.filter
        (matchesSegmentAt req.streamID req.position)).head? with
    | none =>
      rw [List.head?_eq_none_iff.mp hhead] at hmem
      exact absurd hmem (List.not_mem_nil s)
    | some row =>
      have hrowmem : row ∈ db.segments.filter
          (matchesSegmentAt req.streamID req.position) :=
        List.mem_of_mem_head? (by simp [hhead])
      have hrow := List.mem_filter.mp hrowmem
      have hrowp : row.streamID = req.streamID ∧ row.position = req.position := by
        have h2 := hrow.2
        simpa [matchesSegmentAt] using h2
      refine ⟨row, hrow.1, hrowp.1, hrowp.2, ?_⟩
      unfold GetSegmentByPosition GetSegmentByPositionReq.verify
      simp [hnz, hobjne, hhead]
  · intro hnz hmiss
    unfold GetSegmentByPosition GetSegmentByPositionReq.verify
    rcases hmiss with hobj | hnomatch
    · simp [hnz, hobj]
    · have hfil : db.segments.filter
          (matchesSegmentAt req.streamID req.position) = [] :=
        List.filter_eq_nil_iff.mpr (by
          intro s hs
          simp [matchesSegmentAt]
          intro hsid
          exact fun hpos => hnomatch s hs ⟨hsid, hpos⟩)
      simp [hnz, hfil]

/-- Witness for the amended C6: with the objects table nonempty, the
segment at position 0 of stream 5 is found. -/
theorem getSegmentByPosition_spec_witness :
    ∃ s ∈ ({ objects := [sampleCommitted],
             segments := [sampleSegment 0] } : DBState).segments,
      s.streamID = 5 ∧ s.position = 0 ∧
      GetSegmentByPosition ⟨[sampleCommitted], [sampleSegment 0]⟩ ⟨5, 0⟩
        = .ok (scannedSegment ⟨5, 0⟩ s) :=
  (getSegmentByPosition_spec ⟨[sampleCommitted], [sampleSegment 0]⟩
    ⟨5, 0⟩).2.1 (by decide) (by decide)
    ⟨sampleSegment 0, by decide, by decide, by decide⟩

/-- C7: GetSegmentByOffset fails with an InvalidRequest-kind error for
every negative plainOffset independent of the database (hence without
querying); at a valid location it fails with ObjectNotFound when no
committed object or no covering segment exists, and otherwise returns a
covering segment of the latest committed stream with the least PlainOffset
among the matching rows. -/
theorem getSegmentByOffset_spec (db : DBState) (req : GetSegmentByOffsetReq) :
    (req.plainOffset < 0 →
      ∃ e, e.isInvalidRequest = true ∧
        ∀ db2 : DBState, GetSegmentByOffset db2 req = .error e) ∧
    (req.location.verify = .ok () → 0 ≤ req.plainOffset →
      latestCommittedStream db req.location = none →
      GetSegmentByOffset db req
        = .error (.objectNotFound "object or segment missing")) ∧
    (∀ sid, req.location.verify = .ok () → 0 ≤ req.plainOffset →
      latestCommittedStream db req.location = some sid →
      (∀ s ∈ db.segments, ¬(s.streamID = sid ∧ s.plainOffset ≤ req.plainOffset ∧
          req.plainOffset < s.plainSize + s.plainOffset)) →
      GetSegmentByOffset db req
        = .error (.objectNotFound "object or segment missing")) ∧
    (∀ sid, req.location.verify = .ok () → 0 ≤ req.plainOffset →
      latestCommittedStream db req.location = some sid →
      (∃ s ∈ db.segments, s.streamID = sid ∧ s.plainOffset ≤ req.plainOffset ∧
          req.plainOffset < s.plainSize + s.plainOffset) →
      ∃ s ∈ db.segments, s.streamID = sid ∧ s.plainOffset ≤ req.plainOffset ∧
        req.plainOffset < s.plainSize + s.plainOffset ∧
        (∀ s2 ∈ db.segments, s2.streamID = sid →
          s2.plainOffset ≤ req.plainOffset →
          req.plainOffset < s2.plainSize + s2.plainOffset →
          s.plainOffset ≤ s2.plainOffset) ∧
        GetSegmentByOffset db req = .ok s) := by
  refine ⟨?_, ?_, ?_, ?_⟩
  · intro hneg
    rcases locationVerify_cases req.location with hok | ⟨msg, herr⟩
    · refine ⟨.invalidRequest "Invalid PlainOffset", rfl, fun db2 => ?_⟩
      unfold GetSegmentByOffset
      rw [hok]
      simp [hneg]
    · refine ⟨.invalidRequest msg, rfl, fun db2 => ?_⟩
      unfold GetSegmentByOffset
      rw [herr]
  · intro hok hnn hstream
    unfold GetSegmentByOffset
    rw [hok]
    simp [not_lt.mpr hnn, hstream, pickMinOffset]
  · intro sid hok hnn hstream hnone
    have hfil : db.segments.filter (coversOffset sid req.plainOffset) = [] :=
      List.filter_eq_nil_iff.mpr (by
        intro s hs
        simp [coversOffset]
        intro h1 h2
        by_contra hcon
        exact hnone s hs ⟨h1, h2, not_le.mp hcon⟩)
    unfold GetSegmentByOffset
    rw [hok]
    simp [not_lt.mpr hnn, hstream, hfil, pickMinOffset]
  · rintro sid hok hnn hstream ⟨s, hs, hsid, hlo, hhi⟩
    have hmem : s ∈ db.segments.filter (coversOffset sid req.plainOffset) :=
      List.mem_filter.mpr ⟨hs, by simp [coversOffset, hsid, hlo, hhi]⟩
    cases hpick : pickMinOffset (db.segments.filter (coversOffset sid req.plainOffset)) with
    | none =>
      rw [pickMinOffset_eq_none hpick] at hmem
      exact absurd hmem (List.not_mem_nil s)
    | some row =>
      have hrowmem := pickMinOffset_mem hpick
      have hrow := List.mem_filter.mp hrowmem
      have hrowp : row.streamID = sid ∧ row.plainOffset ≤ req.plainOffset ∧
          req.plainOffset < row.plainSize + row.plainOffset := by
        have h2 := hrow.2
        simpa [coversOffset] using h2
      refine ⟨row, hrow.1, hrowp.1, hrowp.2.1, hrowp.2.2, ?_, ?_⟩
      · intro s2 hs2 h1 h2 h3
        exact pickMinOffset_le hpick s2
          (List.mem_filter.mpr ⟨hs2, by simp [coversOffset, h1, h2, h3]⟩)
      · unfold GetSegmentByOffset
        rw [hok]
        simp [not_lt.mpr hnn, hstream, hpick]

/-- Witness for C7: offset 0 falls inside the first segment of the latest
committed stream. -/
theorem getSegmentByOffset_spec_witness :
    ∃ s ∈ ({ objects := [sampleCommitted],
             segments := [sampleSegment 0, sampleSegment 1] } : DBState).segments,
      s.streamID = 5 ∧ s.plainOffset ≤ 0 ∧ (0 : Int) < s.plainSize + s.plainOffset ∧
      (∀ s2 ∈ ({ objects := [sampleCommitted],
                 segments := [sampleSegment 0, sampleSegment 1] } : DBState).segments,
        s2.streamID = 5 → s2.plainOffset ≤ 0 → (0 : Int) < s2.plainSize + s2.plainOffset →
        s.plainOffset ≤ s2.plainOffset) ∧
      GetSegmentByOffset ⟨[sampleCommitted], [sampleSegment 0, sampleSegment 1]⟩
        ⟨⟨1, "b", "k"⟩, 0⟩ = .ok s :=
  (getSegmentByOffset_spec
      ⟨[sampleCommitted], [sampleSegment 0, sampleSegment 1]⟩
      ⟨⟨1, "b", "k"⟩, 0⟩).2.2.2 5 (by decide) (by decide) (by decide)
    ⟨sampleSegment 0, by decide, by decide, by decide, by decide⟩

/-- C8: BucketEmpty fails with InvalidRequest when the project id is zero
or the bucket name is empty, and otherwise returns true exactly when zero
object rows of any status exist for the project and bucket pair (false as
soon as one row exists); the model has no bucket table, mirroring that
bucket existence is never checked. -/
theorem bucketEmpty_spec (db : DBState) (req : BucketEmptyReq) :
    ((req.projectID = 0 ∨ req.bucketName = "") →
      ∃ msg, BucketEmpty db req = .error (.invalidRequest msg)) ∧
    (req.projectID ≠ 0 → req.bucketName ≠ "" →
      BucketEmpty db req = .ok (decide (∀ o ∈ db.objects,
        ¬(o.projectID = req.projectID ∧ o.bucketName = req.bucketName)))) := by
  constructor
  · intro hbad
    unfold BucketEmpty
    by_cases hp : req.projectID = 0
    · exact ⟨"ProjectID missing", by simp [hp]⟩
    · have hb : req.bucketName = "" := hbad.resolve_left hp
      exact ⟨"BucketName missing", by simp [hp, hb]⟩
  · intro hp hb
    unfold BucketEmpty
    cases hhead : (db.objects.filter
        (matchesBucketRow req.projectID req.bucketName)).head? with
    | none =>
      have hfil : db.objects.filter
          (matchesBucketRow req.projectID req.bucketName) = [] :=
        List.head?_eq_none_iff.mp hhead
      have hall : ∀ o ∈ db.objects,
          ¬(o.projectID = req.projectID ∧ o.bucketName = req.bucketName) := by
        intro o ho hcontra
        have : o ∈ db.objects.filter
            (matchesBucketRow req.projectID req.bucketName) :=
          List.mem_filter.mpr ⟨ho, by simp [matchesBucketRow, hcontra.1, hcontra.2]⟩
        rw [hfil] at this
        exact absurd this (List.not_mem_nil o)
      simp [hp, hb, hhead, hall]
      intro o ho h1 h2
      exact hall o ho ⟨h1, h2⟩
    | some row =>
      have hrowmem : row ∈ db.objects.filter
          (matchesBucketRow req.projectID req.bucketName) :=
        List.mem_of_mem_head? (by simp [hhead])
      have hrow := List.mem_filter.mp hrowmem
      have hrowp : row.projectID = req.projectID ∧
          row.bucketName = req.bucketName := by
        have h2 := hrow.2
        simpa [matchesBucketRow] using h2
      have hnall : ¬(∀ o ∈ db.objects,
          ¬(o.projectID = req.projectID ∧ o.bucketName = req.bucketName)) :=
        fun hall => hall row hrow.1 hrowp
      simp [hp, hb, hhead, hnall]
      exact ⟨row, hrow.1, hrowp⟩

/-- Witness for C8: an empty objects table yields true, and the proposition
that no matching row exists holds. -/
theorem bucketEmpty_spec_witness :
    BucketEmpty ⟨[], []⟩ ⟨1, "b"⟩
      = .ok (decide (∀ o ∈ ({ objects := [], segments := [] } : DBState).objects,
          ¬(o.projectID = 1 ∧ o.bucketName = "b"))) :=
  (bucketEmpty_spec ⟨[], []⟩ ⟨1, "b"⟩).2 (by decide) (by decide)

/-- C10: whenever GetObjectExactVersion succeeds, the returned object has
project id, bucket name, object key and version are exactly those of the
request, and its status is Committed. -/
theorem getObjectExactVersion_returns_requested (db : DBState)
    (req : GetObjectExactVersionReq) (obj : Object)
    (h : GetObjectExactVersion db req = .ok obj) :
    obj.projectID = req.location.projectID ∧
    obj.bucketName = req.location.bucketName ∧
    obj.objectKey = req.location.objectKey ∧
    obj.version = req.version ∧
    obj.status = .committed := by
  unfold GetObjectExactVersion at h
  cases hv : req.verify with
  | error e =>
    rw [hv] at h
    exact absurd h (by simp)
  | ok u =>
    rw [hv] at h
    cases hhead : (db.objects.filter (matchesExact req.location req.version)).head? with
    | none =>
      rw [hhead] at h
      exact absurd h (by simp)
    | some row =>
      rw [hhead] at h
      simp at h
      rw [← h]
      simp [scannedObject]

/-- Witness for C10 at the concrete single-object database. -/
theorem getObjectExactVersion_returns_requested_witness :
    (scannedObject ⟨⟨1, "b", "k"⟩, 1⟩ sampleCommitted).projectID = 1 ∧
    (scannedObject ⟨⟨1, "b", "k"⟩, 1⟩ sampleCommitted).bucketName = "b" ∧
    (scannedObject ⟨⟨1, "b", "k"⟩, 1⟩ sampleCommitted).objectKey = "k" ∧
    (scannedObject ⟨⟨1, "b", "k"⟩, 1⟩ sampleCommitted).version = 1 ∧
    (scannedObject ⟨⟨1, "b", "k"⟩, 1⟩ sampleCommitted).status = .committed :=
  getObjectExactVersion_returns_requested ⟨[sampleCommitted], []⟩
    ⟨⟨1, "b", "k"⟩, 1⟩ (scannedObject ⟨⟨1, "b", "k"⟩, 1⟩ sampleCommitted)
    (by decide)

end Metabase

namespace SatelliteDB

/-- A pending coupon row whose user id column holds only three bytes, so
its UUID conversion must fail. -/
def badCouponRow : DbxCoupon :=
  { id := List.replicate 16 0, projectId := List.replicate 16 0,
    userId := [1, 2, 3], amount := 10, description := "promo",
    status := 0, duration := 1, createdAt := 0 }

/-- C9: evaluating the code at the failing input. Converting `badCouponRow`
fails, and `couponsFromDbxSlice` duly reports the failure — yet `ListPaged`
over a table containing that row returns the zero-value page with no error,
swallowing the conversion error instead of surfacing it. -/
theorem listPaged_swallows_conversion_error :
    fromDBXCoupon badCouponRow = .error "uuid: bad byte length" ∧
    (couponsFromDbxSlice [badCouponRow]).2 = ["uuid: bad byte length"] ∧
    ListPaged [badCouponRow] 0 10 5 = .ok {} :=
  ⟨rfl, rfl, rfl⟩

end SatelliteDB
